import Mathlib

/-!
Verification of the everruns Python SDK's event-streaming and tool-call
protocol layer, shallowly embedded in Lean.

The embedding follows the source files:
- `everruns_sdk/sse.py`    : `StreamOptions`, `EventStream._build_url`,
                             `EventStream.__aiter__` (the decode loop);
- `everruns_sdk/models.py` : `ContentPart`, `ToolCallInfo`, `MessageInput`,
                             `Event`, `extract_tool_calls`;
- `everruns_sdk/client.py` : `Everruns.__init__` (credential resolution).

Python JSON values (the output of `json.loads`) are modelled by the
inductive type `Json`; Python `None` is `Json.null` where a value of any
type is expected, and `Option` where a field is `Optional`.  Python dicts
originating from JSON have string keys and no duplicates; they are
modelled as association lists looked up with `List.lookup`.
-/

namespace Everruns

/-- A JSON value as produced by Python's `json.loads`: objects carry
string keys.  `Json.null` also stands for Python `None` where a value of
dynamic type is stored. -/
inductive Json where
  | null : Json
  | bool (b : Bool) : Json
  | num (n : Int) : Json
  | str (s : String) : Json
  | arr (elems : List Json) : Json
  | obj (fields : List (String × Json)) : Json

/-- Python truthiness of a JSON value: `None`, `False`, `0`, `""`, `[]`
and `\x7b\x7d` are falsy, everything else truthy. -/
def Json.truthy : Json → Bool
  | .null => false
  | .bool b => b
  | .num n => n != 0
  | .str s => s != ""
  | .arr es => !es.isEmpty
  | .obj fs => !fs.isEmpty

/-- Truthiness of a `dict.get` result: Python `None` (the key is absent)
is falsy, otherwise the value's own truthiness decides. -/
def getTruthy : Option Json → Bool
  | none => false
  | some j => j.truthy

/-- Event context block (`models.py`, class `EventContext`): two optional
string fields used for correlation. -/
structure EventContext where
  turn_id : Option String := none
  input_message_id : Option String := none
deriving DecidableEq

/-- A decoded SSE event (`models.py`, class `Event`): required string
fields `id`, `type`, `ts`, `session_id`, a required JSON-object payload
`data`, and a `context` defaulting to the empty context. -/
structure Event where
  id : String
  type : String
  ts : String
  session_id : String
  data : List (String × Json)
  context : EventContext

/-- Pydantic validation of an `Optional[str]` field from a JSON object:
absent or `null` gives `none`, a string gives `some`, anything else is a
validation error. -/
def optStrField (kvs : List (String × Json)) (k : String) : Option (Option String) :=
  match kvs.lookup k with
  | none => some none
  | some .null => some none
  | some (.str s) => some (some s)
  | some _ => none

/-- Validation of a JSON value against `EventContext` (both fields
optional strings); a non-object is rejected. -/
def parseContext : Json → Option EventContext
  | .obj kvs => do
      let t ← optStrField kvs "turn_id"
      let i ← optStrField kvs "input_message_id"
      some { turn_id := t, input_message_id := i }
  | _ => none

/-- A required `str` field: present and a string, or validation fails. -/
def strField (kvs : List (String × Json)) (k : String) : Option String :=
  match kvs.lookup k with
  | some (.str s) => some s
  | _ => none

/-- `Event(**data)`: pydantic validation of a parsed JSON value against
the `Event` model.  `id`, `type`, `ts`, `session_id` must be strings,
`data` must be an object, `context` is optional and defaults to the
empty context; extra keys are ignored. -/
def parseEvent : Json → Option Event
  | .obj kvs => do
      let i ← strField kvs "id"
      let ty ← strField kvs "type"
      let ts ← strField kvs "ts"
      let sid ← strField kvs "session_id"
      let d ← match kvs.lookup "data" with
              | some (.obj dk) => some dk
              | _ => none
      let ctx ← match kvs.lookup "context" with
                | none => some ({} : EventContext)
                | some j => parseContext j
      some { id := i, type := ty, ts := ts, session_id := sid, data := d, context := ctx }
  | _ => none

/-- One SSE wire frame as surfaced by `httpx_sse`: the event-name line
(defaulting to "message") and the result of `json.loads` on the data
line — `none` when the data is not valid JSON. -/
structure SseFrame where
  event : String := "message"
  data : Option Json

/-- The body of the decode loop in `EventStream.__aiter__` (`sse.py`
lines 81-91) as a partial decoding function: a frame is considered iff
its event name is "message" or non-empty, its data must parse as JSON
and validate as an `Event`; any failure silently drops the frame. -/
def decodeFrame (f : SseFrame) : Option Event :=
  if f.event = "message" ∨ f.event ≠ "" then f.data.bind parseEvent else none

/-- One iteration of the decode loop acting on the cursor
(`self._last_event_id`): on a successful decode the cursor is set to the
event's id and the event is yielded; otherwise the cursor is unchanged
and nothing is yielded. -/
def streamStep (st : Option String) (f : SseFrame) : Option String × Option Event :=
  match decodeFrame f with
  | some e => (some e.id, some e)
  | none => (st, none)

/-- Running the decode loop of `EventStream.__aiter__` over a list of
frames from an initial cursor: returns the final cursor and the list of
yielded events in order. -/
def streamRun (st : Option String) : List SseFrame → Option String × List Event
  | [] => (st, [])
  | f :: fs =>
      let p := streamStep st f
      let r := streamRun p.1 fs
      (r.1, p.2.toList ++ r.2)

/-- The yield trace of the decode loop: for every yielded event, the
value of the cursor at the moment the event is yielded (i.e. after the
assignment `self._last_event_id = event.id`). -/
def streamTrace (st : Option String) : List SseFrame → List (Option String × Event)
  | [] => []
  | f :: fs =>
      let p := streamStep st f
      (p.2.map (fun e => (p.1, e))).toList ++ streamTrace p.1 fs

/-- The five content-part tags of `ContentPart.type`
(`Literal["text", "image", "image_file", "tool_call", "tool_result"]`). -/
inductive PartType where
  | text
  | image
  | image_file
  | tool_call
  | tool_result
deriving DecidableEq

/-- `models.py`, class `ContentPart`: a single record whose `type` is one
of the five tags and whose remaining fields are all optional (default
`None`).  `result` is `Optional[Any]`, so Python `None` is `Json.null`. -/
structure ContentPart where
  type : PartType
  text : Option String := none
  url : Option String := none
  base64 : Option String := none
  image_id : Option String := none
  id : Option String := none
  name : Option String := none
  arguments : Option (List (String × Json)) := none
  tool_call_id : Option String := none
  result : Json := .null
  error : Option String := none

/-- `models.py`, class `ToolCallInfo`: required string `id` and `name`
and a required string-keyed `arguments` map. -/
structure ToolCallInfo where
  id : String
  name : String
  arguments : List (String × Json)

/-- `ContentPart.make_text`. -/
def ContentPart.make_text (text : String) : ContentPart :=
  { type := .text, text := some text }

/-- `ContentPart.make_tool_result(tool_call_id, result)`: a
`tool_result` part with the given result payload (which, being `Any`,
may itself be Python `None` = `Json.null`). -/
def ContentPart.make_tool_result (tool_call_id : String) (result : Json) : ContentPart :=
  { type := .tool_result, tool_call_id := some tool_call_id, result := result }

/-- `ContentPart.make_tool_error(tool_call_id, error)`: a `tool_result`
part with the given error string. -/
def ContentPart.make_tool_error (tool_call_id : String) (error : String) : ContentPart :=
  { type := .tool_result, tool_call_id := some tool_call_id, error := some error }

/-- `ContentPart.is_tool_call`. -/
def ContentPart.is_tool_call (p : ContentPart) : Bool :=
  p.type = PartType.tool_call

/-- `ContentPart.as_tool_call`: `some` exactly when the part's tag is
`tool_call` and both `id` and `name` are not `None`; `arguments` falls
back to the empty map via `self.arguments or \x7b\x7d`. -/
def ContentPart.as_tool_call (p : ContentPart) : Option ToolCallInfo :=
  if p.type ≠ PartType.tool_call ∨ p.id = none ∨ p.name = none then none
  else some { id := p.id.getD "", name := p.name.getD "",
              arguments := p.arguments.getD [] }

/-- The three message roles (`Literal["user", "agent", "tool_result"]`). -/
inductive Role where
  | user
  | agent
  | tool_result
deriving DecidableEq

/-- `models.py`, class `MessageInput`: a role plus a content list. -/
structure MessageInput where
  role : Role
  content : List ContentPart

/-- `MessageInput.tool_results(results)`: packages the given parts as a
single message input with role `tool_result`. -/
def MessageInput.tool_results (results : List ContentPart) : MessageInput :=
  { role := .tool_result, content := results }

/-- `ToolCallInfo(id=call_id, name=call_name, arguments=args)` applied
to dynamic JSON values: pydantic accepts exactly a string id, a string
name and an object arguments map, and raises a validation error
otherwise. -/
def mkToolCallInfo (call_id call_name args : Json) : Except Unit ToolCallInfo :=
  match call_id, call_name, args with
  | .str i, .str n, .obj a => .ok { id := i, name := n, arguments := a }
  | _, _, _ => .error ()

/-- Whether a `dict.get("type")` result equals the string "tool_call"
under Python `==`. -/
def isToolCallTag : Option Json → Bool
  | some (.str s) => s == "tool_call"
  | _ => false

/-- The loop body of `extract_tool_calls` for one content entry: a
non-dict entry, a non-`tool_call` tag, or a falsy `id` or `name` skips
the entry (`ok none`); otherwise a `ToolCallInfo` is constructed, which
may raise (`error`). -/
def partStep (part : Json) : Except Unit (Option ToolCallInfo) :=
  match part with
  | .obj p =>
      if isToolCallTag (p.lookup "type") then
        let call_id := p.lookup "id"
        let call_name := p.lookup "name"
        if getTruthy call_id && getTruthy call_name then
          (mkToolCallInfo (call_id.getD .null) (call_name.getD .null)
            ((p.lookup "arguments").getD (.obj []))).map some
        else .ok none
      else .ok none
  | _ => .ok none

/-- The `for part in content` loop of `extract_tool_calls`: entries are
processed left to right, accumulating the projected tool calls; the
first validation error aborts the call. -/
def extractLoop : List Json → Except Unit (List ToolCallInfo)
  | [] => .ok []
  | part :: rest => do
      let r ← partStep part
      let rs ← extractLoop rest
      pure (r.toList ++ rs)

/-- The guard clauses of `extract_tool_calls`: `data.get("message")`
must be a dict and `message.get("content")` must be a list, else the
function short-circuits (modelled as `none`). -/
def locateContent (data : List (String × Json)) : Option (List Json) :=
  match data.lookup "message" with
  | some (.obj message) =>
      match message.lookup "content" with
      | some (.arr content) => some content
      | _ => none
  | _ => none

/-- `models.py`, function `extract_tool_calls(data)`: locate
`data.message.content`; a missing or non-dict `message`, or a missing or
non-list `content`, gives the empty list; otherwise the content entries
are filtered and projected by the loop.  A pydantic validation error
raised while constructing a `ToolCallInfo` propagates to the caller. -/
def extract_tool_calls (data : List (String × Json)) : Except Unit (List ToolCallInfo) :=
  match locateContent data with
  | some content => extractLoop content
  | none => .ok []

/-- `sse.py`, dataclass `StreamOptions`: an exclude list and an optional
resumption id. -/
structure StreamOptions where
  exclude : List String := []
  since_id : Option String := none

/-- The keyword parameters accepted by the generated
`StreamOptions.__init__`: exactly the dataclass fields, in order. -/
def streamOptionsFields : List String := ["exclude", "since_id"]

/-- Whether `StreamOptions(...)` accepts a given keyword argument;
any other keyword raises a `TypeError` at construction. -/
def streamOptionsAcceptsKw (kw : String) : Bool :=
  streamOptionsFields.contains kw

/-- Python truthiness of an `Optional[str]` value: `None` and the empty
string are falsy. -/
def strTruthy : Option String → Bool
  | none => false
  | some s => s != ""

/-- Python's `a or b` on `Optional[str]` values: the first operand when
it is truthy, otherwise the second operand unchanged. -/
def pyOr (a b : Option String) : Option String :=
  if strTruthy a then a else b

/-- The query-parameter list built by `EventStream._build_url` (`sse.py`
lines 56-63): a `since_id` parameter from
`self._last_event_id or self._options.since_id` when that value is
truthy, then one `exclude` parameter per entry of the exclude option. -/
def buildParams (lastEventId : Option String) (opts : StreamOptions) : List String :=
  let since_id := pyOr lastEventId opts.since_id
  (if strTruthy since_id then ["since_id=" ++ since_id.getD ""] else [])
    ++ opts.exclude.map (fun e => "exclude=" ++ e)

/-- The fixed path part of the stream URL. -/
def urlStem (base_url org session_id : String) : String :=
  base_url ++ "/v1/orgs/" ++ org ++ "/sessions/" ++ session_id ++ "/sse"

/-- `EventStream._build_url` (`sse.py` lines 53-68): the stem plus, when
any parameter exists, a `?`-prefixed `&`-join of the parameters. -/
def build_url (base_url org session_id : String)
    (lastEventId : Option String) (opts : StreamOptions) : String :=
  let params := buildParams lastEventId opts
  if params.isEmpty then urlStem base_url org session_id
  else urlStem base_url org session_id ++ "?" ++ String.intercalate "&" params

/-- Modelled from the spec: `errors.py` is not part of the sources at
hand (only imports of it are), and the spec describes "a local
`ConfigurationError` for missing credentials at construction time"; it
is modelled as the error raised by client construction when no
credential can be resolved. -/
inductive ConfigurationError where
  | missingApiKey
deriving DecidableEq

/-- The state a successfully constructed `Everruns` client holds. -/
structure ClientState where
  api_key : String
  org : String
  base_url : String
deriving DecidableEq

/-- `base_url.rstrip("/")`: remove all trailing slashes. -/
def rstripSlash (s : String) : String :=
  String.mk ((s.data.reverse.dropWhile (fun c => c = '/')).reverse)

/-- `Everruns.__init__` (`client.py` lines 43-67): an explicit `api_key`
is used as given; otherwise the `EVERRUNS_API_KEY` environment value is
consulted, and a missing or empty value raises before anything else
happens.  No network request is made: construction only records state. -/
def everrunsInit (org : String) (api_key : Option String)
    (env_api_key : Option String) (base_url : String) :
    Except ConfigurationError ClientState :=
  match api_key with
  | some k => .ok { api_key := k, org := org, base_url := rstripSlash base_url }
  | none =>
      match env_api_key with
      | some k =>
          if k = "" then .error .missingApiKey
          else .ok { api_key := k, org := org, base_url := rstripSlash base_url }
      | none => .error .missingApiKey

/-- A well-formed sample frame whose JSON decodes to `sampleEvent i`. -/
def sampleFrame (i : String) : SseFrame :=
  { event := "message",
    data := some (.obj [("id", .str i), ("type", .str "output.message.completed"),
                        ("ts", .str "t0"), ("session_id", .str "s1"),
                        ("data", .obj [])]) }

/-- The event `sampleFrame i` decodes to. -/
def sampleEvent (i : String) : Event :=
  { id := i, type := "output.message.completed", ts := "t0", session_id := "s1",
    data := [], context := {} }

/-- A frame whose data validates as no `Event` (the object is missing
every required field), hence is silently dropped by the loop. -/
def malformedFrame : SseFrame :=
  { event := "message", data := some (.obj [("oops", .bool true)]) }

theorem streamStep_fst_of_yield {st : Option String} {f : SseFrame}
    {c : Option String} {e : Event} (h : streamStep st f = (c, some e)) :
    c = some e.id := by
  unfold streamStep at h
  cases hd : decodeFrame f with
  | none => rw [hd] at h; simp at h
  | some e0 =>
      rw [hd] at h
      injection h with h1 h2
      injection h2 with h3
      subst h3
      exact h1.symm

theorem streamStep_fst_of_skip {st : Option String} {f : SseFrame}
    {c : Option String} (h : streamStep st f = (c, none)) : c = st := by
  unfold streamStep at h
  cases hd : decodeFrame f with
  | none => rw [hd] at h; injection h with h1 h2; exact h1.symm
  | some e0 => rw [hd] at h; simp at h

theorem streamRun_cursor_eq (st : Option String) (fs : List SseFrame) :
    (streamRun st fs).1 =
      match (streamRun st fs).2.getLast? with
      | some e => some e.id
      | none => st := by
  induction fs generalizing st with
  | nil => simp [streamRun]
  | cons f fs ih =>
      simp only [streamRun]
      cases hd : decodeFrame f with
      | none =>
          simp only [streamStep, hd, Option.toList_none, List.nil_append]
          exact ih st
      | some e0 =>
          simp only [streamStep, hd, Option.toList_some, List.singleton_append]
          rw [ih (some e0.id)]
          cases hl : (streamRun (some e0.id) fs).2 with
          | nil => simp
          | cons x xs =>
              obtain ⟨y, hy⟩ :=
                Option.isSome_iff_exists.mp
                  (List.getLast?_isSome.mpr (List.cons_ne_nil x xs))
              simp [List.getLast?_cons_cons, hy]

theorem streamRun_events_eq_filterMap (st : Option String) (fs : List SseFrame) :
    (streamRun st fs).2 = fs.filterMap decodeFrame := by
  induction fs generalizing st with
  | nil => simp [streamRun]
  | cons f fs ih =>
      simp only [streamRun, List.filterMap_cons]
      cases hd : decodeFrame f with
      | none => simp [streamStep, hd, ih]
      | some e0 => simp [streamStep, hd, ih]

theorem streamTrace_snd_eq (st : Option String) (fs : List SseFrame) :
    (streamTrace st fs).map Prod.snd = (streamRun st fs).2 := by
  induction fs generalizing st with
  | nil => simp [streamTrace, streamRun]
  | cons f fs ih =>
      simp only [streamTrace, streamRun]
      cases hd : decodeFrame f with
      | none => simp [streamStep, hd, ih]
      | some e0 => simp [streamStep, hd, ih]

theorem streamTrace_cursor (st : Option String) (fs : List SseFrame)
    (c : Option String) (e : Event) (h : (c, e) ∈ streamTrace st fs) :
    c = some e.id := by
  induction fs generalizing st with
  | nil => simp [streamTrace] at h
  | cons f fs ih =>
      simp only [streamTrace] at h
      cases hd : decodeFrame f with
      | none =>
          have h' : (c, e) ∈ streamTrace st fs := by
            simpa [streamStep, hd] using h
          exact ih st h'
      | some e0 =>
          have h' : (c = some e0.id ∧ e = e0) ∨ (c, e) ∈ streamTrace (some e0.id) fs := by
            simpa [streamStep, hd] using h
          rcases h' with ⟨hc, he⟩ | h'
          · subst he; exact hc
          · exact ih (some e0.id) h'

/-- C1: after every prefix of frames, once the decode loop has yielded
events, the cursor `last_event_id` equals the id of the last (Nth)
yielded event, and each event is yielded with the cursor already set to
that event's own id; the trace's events are exactly the yielded events. -/
theorem c1_cursor_tracks_yields :
    (∀ (st : Option String) (fs : List SseFrame) (e : Event),
        (streamRun st fs).2.getLast? = some e → (streamRun st fs).1 = some e.id)
    ∧ (∀ (st : Option String) (fs : List SseFrame) (c : Option String) (e : Event),
        (c, e) ∈ streamTrace st fs → c = some e.id)
    ∧ (∀ (st : Option String) (fs : List SseFrame),
        (streamTrace st fs).map Prod.snd = (streamRun st fs).2) := by
  refine ⟨fun st fs e h => ?_, streamTrace_cursor, streamTrace_snd_eq⟩
  rw [streamRun_cursor_eq, h]

theorem c1_witness :
    (streamRun none [sampleFrame "e1", sampleFrame "e2"]).1 = some "e2" :=
  c1_cursor_tracks_yields.1 none [sampleFrame "e1", sampleFrame "e2"]
    (sampleEvent "e2") (by rfl)

/-- C2: a frame whose data fails JSON parsing or `Event` validation is
dropped: the run over any surrounding frames is unchanged — same yielded
events (none from the bad frame), same final cursor, and the frames
after it are still decoded; the loop is total, so no error reaches the
consumer. -/
theorem c2_malformed_frame_dropped :
    ∀ (st : Option String) (pre post : List SseFrame) (f : SseFrame),
      f.data.bind parseEvent = none →
      streamRun st (pre ++ f :: post) = streamRun st (pre ++ post) := by
  intro st pre post f h
  have hdec : decodeFrame f = none := by
    unfold decodeFrame
    rw [h, ite_self]
  induction pre generalizing st with
  | nil =>
      simp only [List.nil_append, streamRun, streamStep, hdec, Option.toList_none,
        List.nil_append]
  | cons g pre ih =>
      rw [List.cons_append, List.cons_append]
      simp only [streamRun]
      rw [ih]

theorem c2_witness :
    streamRun none [sampleFrame "e1", malformedFrame, sampleFrame "e2"]
      = streamRun none [sampleFrame "e1", sampleFrame "e2"] :=
  c2_malformed_frame_dropped none [sampleFrame "e1"] [sampleFrame "e2"]
    malformedFrame (by rfl)

/-- A pair of valid frames whose ids are not increasing. -/
def c4Frames : List SseFrame := [sampleFrame "2", sampleFrame "1"]

/-- C4 counterexample: the decode loop enforces no id monotonicity — two
valid frames with ids "2" then "1" are both yielded, in that order, so
the second yielded event's id is smaller than the first's. -/
theorem c4_counterexample :
    (streamRun none c4Frames).2.map Event.id = ["2", "1"]
    ∧ ¬ (["2", "1"].Chain' (· < ·)) := by
  constructor
  · rfl
  · rw [List.chain'_pair, String.lt_iff_toList_lt]
    decide

/-- C4 amended: the stream yields exactly the successfully decoded
events of the frame sequence in frame order (no reordering, no
filtering by id); consequently the yielded ids are strictly increasing
whenever the decoded frames' ids are strictly increasing — the
server-side id monotonicity is an assumption, not enforced client-side. -/
theorem c4_yield_order :
    (∀ (st : Option String) (fs : List SseFrame),
        (streamRun st fs).2 = fs.filterMap decodeFrame)
    ∧ (∀ (st : Option String) (fs : List SseFrame),
        ((fs.filterMap decodeFrame).map Event.id).Chain' (· < ·) →
        ((streamRun st fs).2.map Event.id).Chain' (· < ·)) := by
  refine ⟨streamRun_events_eq_filterMap, fun st fs h => ?_⟩
  rw [streamRun_events_eq_filterMap]
  exact h

theorem c4_witness :
    ((streamRun none [sampleFrame "1", sampleFrame "2"]).2.map Event.id).Chain' (· < ·) :=
  c4_yield_order.2 none [sampleFrame "1", sampleFrame "2"]
    (by rw [show ([sampleFrame "1", sampleFrame "2"].filterMap decodeFrame).map Event.id
              = ["1", "2"] from rfl, List.chain'_pair, String.lt_iff_toList_lt]
        decide)

/-- Whether a `dict.get` result is a JSON string. -/
def isStrOpt : Option Json → Bool
  | some (.str _) => true
  | _ => false

/-- The string carried by a `dict.get` result, empty when it is not a
string. -/
def strOf : Option Json → String
  | some (.str s) => s
  | _ => ""

/-- Whether a `dict.get("arguments")` result can validate as the
`arguments` map of a `ToolCallInfo`: absent, or a JSON object. -/
def isArgsOk : Option Json → Bool
  | none => true
  | some (.obj _) => true
  | _ => false

/-- The arguments map of a projected tool call per the claim: the
entry's `arguments` object, or the empty map when absent. -/
def specArgs : Option Json → List (String × Json)
  | some (.obj a) => a
  | _ => []

/-- The projection described by the claim for one content entry: a
`ToolCallInfo` exactly for an object entry tagged `tool_call` whose `id`
and `name` are present, non-empty strings, with `arguments` defaulted to
the empty map when absent. -/
def specPart (part : Json) : Option ToolCallInfo :=
  match part with
  | .obj p =>
      if isToolCallTag (p.lookup "type") && isStrOpt (p.lookup "id")
          && strOf (p.lookup "id") != "" && isStrOpt (p.lookup "name")
          && strOf (p.lookup "name") != "" then
        some { id := strOf (p.lookup "id"), name := strOf (p.lookup "name"),
               arguments := specArgs (p.lookup "arguments") }
      else none
  | _ => none

/-- The result described by the claim: locate `data.message.content`
(empty when `message` is not a dict or `content` is not a list) and
project each qualifying entry in content order. -/
def specToolCalls (data : List (String × Json)) : List ToolCallInfo :=
  match locateContent data with
  | some content => content.filterMap specPart
  | none => []

/-- A content entry is tame when a `tool_call` tag with truthy `id` and
`name` comes with string `id` and `name` and validatable `arguments` —
i.e. the entry cannot make `ToolCallInfo` construction raise. -/
def tamePart (part : Json) : Bool :=
  match part with
  | .obj p =>
      !(isToolCallTag (p.lookup "type") && getTruthy (p.lookup "id")
          && getTruthy (p.lookup "name"))
      || (isStrOpt (p.lookup "id") && isStrOpt (p.lookup "name")
          && isArgsOk (p.lookup "arguments"))
  | _ => true

/-- Event data is tame when every entry of its located content list is. -/
def tameData (data : List (String × Json)) : Bool :=
  match locateContent data with
  | some content => content.all tamePart
  | none => true

theorem getTruthy_of_isStrOpt (o : Option Json) (h : isStrOpt o = true) :
    getTruthy o = (strOf o != "") := by
  cases o with
  | none => simp [isStrOpt] at h
  | some j => cases j <;> simp_all [isStrOpt, getTruthy, Json.truthy, strOf]

theorem isStrOpt_eq {o : Option Json} (h : isStrOpt o = true) :
    o = some (.str (strOf o)) := by
  cases o with
  | none => simp [isStrOpt] at h
  | some j => cases j <;> simp_all [isStrOpt, strOf]

theorem isArgsOk_cases {o : Option Json} (h : isArgsOk o = true) :
    o = none ∨ ∃ xs, o = some (.obj xs) := by
  cases o with
  | none => exact Or.inl rfl
  | some j =>
      cases j with
      | obj xs => exact Or.inr ⟨xs, rfl⟩
      | null => simp [isArgsOk] at h
      | bool b => simp [isArgsOk] at h
      | num n => simp [isArgsOk] at h
      | str s => simp [isArgsOk] at h
      | arr es => simp [isArgsOk] at h

theorem specCond_false_of_not_truthy {i n : Option Json}
    (hin : (getTruthy i && getTruthy n) = false) :
    (isStrOpt i && strOf i != "" && isStrOpt n && strOf n != "") = false := by
  cases hsi : isStrOpt i with
  | false => simp [hsi]
  | true =>
      cases hsn : isStrOpt n with
      | false => simp [hsn]
      | true =>
          rw [getTruthy_of_isStrOpt _ hsi, getTruthy_of_isStrOpt _ hsn] at hin
          simpa [hsi, hsn] using hin

theorem partStep_tame (part : Json) (h : tamePart part = true) :
    partStep part = .ok (specPart part) := by
  cases part with
  | null => rfl
  | bool b => rfl
  | num n => rfl
  | str s => rfl
  | arr es => rfl
  | obj p =>
      rw [tamePart] at h
      rw [partStep, specPart]
      cases htag : isToolCallTag (p.lookup "type") with
      | false => simp [htag]
      | true =>
          rw [htag] at h
          simp only [htag, Bool.true_and, if_true]
          cases hin : (getTruthy (p.lookup "id") && getTruthy (p.lookup "name")) with
          | false =>
              have hc := specCond_false_of_not_truthy hin
              simp [hin, hc]
          | true =>
              obtain ⟨hti, htn⟩ :
                  getTruthy (p.lookup "id") = true ∧ getTruthy (p.lookup "name") = true := by
                simpa using hin
              have h' : isStrOpt (p.lookup "id") && isStrOpt (p.lookup "name")
                  && isArgsOk (p.lookup "arguments") = true := by
                simpa [hti, htn] using h
              obtain ⟨⟨hsi, hsn⟩, hak⟩ :
                  (isStrOpt (p.lookup "id") = true ∧ isStrOpt (p.lookup "name") = true)
                  ∧ isArgsOk (p.lookup "arguments") = true := by
                simpa using h'
              obtain ⟨si, hi⟩ : ∃ s, p.lookup "id" = some (.str s) := ⟨_, isStrOpt_eq hsi⟩
              obtain ⟨sn, hn⟩ : ∃ s, p.lookup "name" = some (.str s) := ⟨_, isStrOpt_eq hsn⟩
              rw [hi] at hti
              rw [hn] at htn
              simp only [getTruthy, Json.truthy] at hti htn
              rw [hi, hn]
              rcases isArgsOk_cases hak with ha | ⟨xs, ha⟩ <;>
                rw [ha] <;>
                simp [hin, hi, hn, ha, mkToolCallInfo, specArgs, isStrOpt, strOf,
                  getTruthy, Json.truthy, hti, htn, Except.map]

theorem extractLoop_tame (content : List Json) (h : content.all tamePart = true) :
    extractLoop content = .ok (content.filterMap specPart) := by
  induction content with
  | nil => rfl
  | cons part rest ih =>
      rw [List.all_cons, Bool.and_eq_true] at h
      simp only [extractLoop, partStep_tame part h.1, ih h.2, List.filterMap_cons]
      cases o : specPart part <;> simp only [o] <;> rfl

/-- C3 counterexample input: a single `tool_call` entry whose `id` is the
JSON number `5` — present and truthy, but not a string. -/
def c3BadPart : List (String × Json) :=
  [("type", .str "tool_call"), ("id", .num 5), ("name", .str "get_weather")]

/-- C3 counterexample event data wrapping `c3BadPart`. -/
def c3BadData : List (String × Json) :=
  [("message", .obj [("content", .arr [.obj c3BadPart])])]

/-- C3 counterexample: on a content entry tagged `tool_call` with `id`
and `name` both present and truthy but `id` a number, `extract_tool_calls`
raises a pydantic validation error instead of returning a list — the
entry is neither projected nor silently skipped. -/
theorem c3_counterexample :
    extract_tool_calls c3BadData = .error ()
    ∧ isToolCallTag (c3BadPart.lookup "type") = true
    ∧ getTruthy (c3BadPart.lookup "id") = true
    ∧ getTruthy (c3BadPart.lookup "name") = true :=
  ⟨rfl, rfl, rfl, rfl⟩

/-- C3 amended: for tame event data — data in which every located
content entry tagged `tool_call` with truthy `id` and `name` carries
string `id` and `name` and absent-or-object `arguments` —
`extract_tool_calls` returns without error exactly the claim's
projection: empty when `data.message` is not a dict or
`message.content` is not a list, else one `ToolCallInfo` per qualifying
entry in content order, skipping the rest; an entry with a truthy
non-string `id` or `name` instead raises a validation error. -/
theorem c3_extract_tool_calls_tame :
    ∀ data : List (String × Json), tameData data = true →
      extract_tool_calls data = .ok (specToolCalls data) := by
  intro data h
  rw [tameData] at h
  rw [extract_tool_calls, specToolCalls]
  cases hl : locateContent data with
  | none => rfl
  | some content =>
      rw [hl] at h
      exact extractLoop_tame content h

/-- C3 witness input: the spec's worked example. -/
def c3GoodData : List (String × Json) :=
  [("message", .obj [("content", .arr
    [.obj [("type", .str "tool_call"), ("id", .str "c1"),
           ("name", .str "get_weather"),
           ("arguments", .obj [("city", .str "Paris")])]])])]

theorem c3_witness :
    tameData c3GoodData = true
    ∧ extract_tool_calls c3GoodData =
        .ok [{ id := "c1", name := "get_weather",
               arguments := [("city", Json.str "Paris")] }] :=
  ⟨rfl, c3_extract_tool_calls_tame c3GoodData rfl⟩

/-- C5 counterexample: with the cursor set to the empty string (an
`Event.id` may be any string, including `""`), the built URL encodes the
caller-supplied `since_id` option even though the cursor is set, because
`self._last_event_id or self._options.since_id` tests truthiness, not
presence. -/
theorem c5_counterexample :
    build_url "https://a" "o1" "s1" (some "") { exclude := [], since_id := some "id7" }
        = "https://a/v1/orgs/o1/sessions/s1/sse?since_id=id7"
    ∧ (some "" : Option String) ≠ none := by
  refine ⟨by decide, by simp⟩

/-- C5 amended: the stream URL encodes `since_id` equal to the cursor
when the cursor is set and non-empty (the caller's option is then
ignored), equal to the caller's `since_id` option when the cursor is
unset or empty and the option is non-empty, and omits `since_id` when
both are unset or empty; one repeated `exclude` parameter is encoded
per entry of the exclude option, in order, in every case. -/
theorem c5_build_url_params :
    (∀ (base org sid c : String) (opts : StreamOptions), c ≠ "" →
        build_url base org sid (some c) opts =
          urlStem base org sid ++ "?" ++ String.intercalate "&"
            (("since_id=" ++ c) :: opts.exclude.map (fun e => "exclude=" ++ e)))
    ∧ (∀ (base org sid s : String) (cursor : Option String) (opts : StreamOptions),
        strTruthy cursor = false → opts.since_id = some s → s ≠ "" →
        build_url base org sid cursor opts =
          urlStem base org sid ++ "?" ++ String.intercalate "&"
            (("since_id=" ++ s) :: opts.exclude.map (fun e => "exclude=" ++ e)))
    ∧ (∀ (cursor : Option String) (opts : StreamOptions),
        strTruthy cursor = false → strTruthy opts.since_id = false →
        buildParams cursor opts = opts.exclude.map (fun e => "exclude=" ++ e)) := by
  refine ⟨fun base org sid c opts hc => ?_, fun base org sid s cursor opts hcur hs hne => ?_,
    fun cursor opts hcur hs => ?_⟩
  · simp [build_url, buildParams, pyOr, strTruthy, hc]
  · have hs' : strTruthy (some s) = true := by simp [strTruthy, hne]
    simp [build_url, buildParams, pyOr, hcur, hs, hs']
  · simp [buildParams, pyOr, hcur, hs]

theorem c5_witness :
    build_url "b" "o" "s" (some "e9")
        { exclude := ["output.message.delta"], since_id := some "zz" }
      = "b/v1/orgs/o/sessions/s/sse?since_id=e9&exclude=output.message.delta" := by
  rw [c5_build_url_params.1 "b" "o" "s" "e9"
    { exclude := ["output.message.delta"], since_id := some "zz" } (by decide)]
  decide

/-- C6: constructing the client with no explicit api_key and no (or an
empty) `EVERRUNS_API_KEY` environment value fails with the
construction-time configuration error; with an explicit key, or a
non-empty environment key, construction succeeds and merely records
state — no network call is modelled because none is made. -/
theorem c6_missing_credential :
    (∀ org burl, everrunsInit org none none burl = .error .missingApiKey)
    ∧ (∀ org burl, everrunsInit org none (some "") burl = .error .missingApiKey)
    ∧ (∀ org burl k, everrunsInit org (some k) none burl =
        .ok { api_key := k, org := org, base_url := rstripSlash burl })
    ∧ (∀ org burl k, k ≠ "" → everrunsInit org none (some k) burl =
        .ok { api_key := k, org := org, base_url := rstripSlash burl }) := by
  refine ⟨fun _ _ => rfl, fun _ _ => rfl, fun _ _ _ => rfl, fun o b k hk => ?_⟩
  simp [everrunsInit, hk]

theorem c6_witness :
    everrunsInit "org1" none (some "evr_key") "https://app.everruns.com/api" =
      .ok { api_key := "evr_key", org := "org1",
            base_url := "https://app.everruns.com/api" } := by
  rw [c6_missing_credential.2.2.2 "org1" "https://app.everruns.com/api" "evr_key"
    (by decide)]
  rfl

/-- A `tool_result` part constructed with every optional field left at
its default — pydantic accepts it. -/
def c7BadPart : ContentPart := { type := .tool_result }

/-- C7 counterexample: the `ContentPart` record does not enforce the
`tool_result` invariant — a part with tag `tool_result`, no
`tool_call_id`, no `result` and no `error` is constructible. -/
theorem c7_counterexample :
    c7BadPart.type = PartType.tool_result
    ∧ c7BadPart.tool_call_id = none
    ∧ c7BadPart.result = Json.null
    ∧ c7BadPart.error = none :=
  ⟨rfl, rfl, rfl, rfl⟩

/-- C7 amended: the record itself does not enforce the exactly-one
invariant, but the named constructors do produce the intended shapes:
`make_tool_result` sets `tool_call_id` and `result` (to the given
payload, so `result` is unset only if the caller passes `None`) and
leaves `error` unset, and `make_tool_error` sets `tool_call_id` and
`error` and leaves `result` unset. -/
theorem c7_constructors :
    (∀ (cid : String) (r : Json),
        ContentPart.make_tool_result cid r =
          { type := .tool_result, tool_call_id := some cid, result := r })
    ∧ (∀ (cid e : String),
        ContentPart.make_tool_error cid e =
          { type := .tool_result, tool_call_id := some cid, error := some e }) :=
  ⟨fun _ _ => rfl, fun _ _ => rfl⟩

/-- C8: `MessageInput.tool_results` packages any list of parts into a
single message input with role `tool_result` whose content is exactly
the given list — nothing added, dropped or reordered. -/
theorem c8_tool_results_packaging :
    ∀ results : List ContentPart,
      (MessageInput.tool_results results).role = Role.tool_result
      ∧ (MessageInput.tool_results results).content = results :=
  fun _ => ⟨rfl, rfl⟩

/-- C9: the `StreamOptions` dataclass has only the fields `exclude` and
`since_id`; its generated constructor does not accept a `max_retries`
keyword, so `StreamOptions(max_retries=3)` — as the repository's own
cookbook calls it — raises a `TypeError`. -/
theorem c9_max_retries_not_a_field :
    streamOptionsAcceptsKw "max_retries" = false := by decide

/-- C10: `as_tool_call` returns the projected `ToolCallInfo` exactly
when the tag is `tool_call` and both `id` and `name` are not `None`
(with `arguments` defaulted to the empty map), and `none` otherwise; in
particular it accepts an empty-string id, which `extract_tool_calls`
skips. -/
theorem c10_as_tool_call_spec :
    (∀ p : ContentPart,
        p.as_tool_call =
          if p.type = PartType.tool_call ∧ p.id ≠ none ∧ p.name ≠ none then
            some { id := p.id.getD "", name := p.name.getD "",
                   arguments := p.arguments.getD [] }
          else none)
    ∧ (ContentPart.as_tool_call { type := .tool_call, id := some "", name := some "n" } =
        some { id := "", name := "n", arguments := [] })
    ∧ (extract_tool_calls
          [("message", .obj [("content", .arr
            [.obj [("type", .str "tool_call"), ("id", .str ""), ("name", .str "n")]])])]
        = .ok []) := by
  refine ⟨fun p => ?_, rfl, rfl⟩
  rw [ContentPart.as_tool_call]
  by_cases h : p.type = PartType.tool_call ∧ p.id ≠ none ∧ p.name ≠ none
  · rw [if_neg (show ¬(p.type ≠ PartType.tool_call ∨ p.id = none ∨ p.name = none) by
        tauto), if_pos h]
  · rw [if_pos (show p.type ≠ PartType.tool_call ∨ p.id = none ∨ p.name = none by
        tauto), if_neg h]

end Everruns
